import Mathlib

/-!
# Verification of `dm-date-variance-injector` (src/main.py)

Shallow embedding of the single-file Python program.  The program:

* parses a date string with `datetime.datetime.strptime(s, "%Y-%m-%d").date()`
  (`validate_date`, src/main.py:49-68);
* checks `abs(range_days) > max_range` and raises `ValueError` reporting both
  values (`inject_date_variance`, src/main.py:87-90);
* draws `variance = random.randint(-abs(range_days), abs(range_days))`
  (src/main.py:92) — here the draw is an explicit parameter `v`, constrained by
  `randint`'s documented contract `-|r| ≤ v ≤ |r|` (`drawOk`);
* computes `date_obj + datetime.timedelta(days=variance)` (src/main.py:94),
  which is proleptic-Gregorian day arithmetic on CPython's day ordinals
  (ordinal 1 = 0001-01-01, maximum ordinal 3652059 = 9999-12-31), raising
  `OverflowError` outside that range;
* `main` (src/main.py:98-122) prints the `strftime`-formatted result on
  success and on any error logs it and exits with status 1.

Python strings are modelled as `List Char`; machine integers are `Int`
(CPython ints are unbounded, so no modular reduction is needed).
-/

set_option maxHeartbeats 1000000

namespace DateVariance

/-- Gregorian leap-year test, as in CPython `datetime._is_leap`:
`year % 4 == 0 and (year % 100 != 0 or year % 400 == 0)`. -/
def isLeap (y : Nat) : Bool :=
  y % 4 == 0 && (y % 100 != 0 || y % 400 == 0)

/-- Number of days of month `m` (1..12) in a year with leap flag `leap`;
0 for out-of-range month indices. -/
def daysInMonth (leap : Bool) (m : Nat) : Nat :=
  match m with
  | 1 => 31 | 2 => if leap then 29 else 28 | 3 => 31 | 4 => 30
  | 5 => 31 | 6 => 30 | 7 => 31 | 8 => 31
  | 9 => 30 | 10 => 31 | 11 => 30 | 12 => 31
  | _ => 0

/-- Days in the year before month `m`:
`daysBeforeMonth leap 1 = 0`, `daysBeforeMonth leap (m+1) =
daysBeforeMonth leap m + daysInMonth leap m` (CPython `_days_before_month`). -/
def daysBeforeMonth (leap : Bool) : Nat → Nat
  | 0 => 0
  | m + 1 => daysBeforeMonth leap m + daysInMonth leap m

/-- Number of days in year `y` (366 in leap years). -/
def daysInYear (y : Nat) : Nat := if isLeap y then 366 else 365

/-- Days before January 1 of year `y`, counted from 0001-01-01
(CPython `_days_before_year`): `365*(y-1) + (y-1)//4 - (y-1)//100 + (y-1)//400`. -/
def daysBeforeYear (y : Nat) : Nat :=
  365 * (y - 1) + (y - 1) / 4 - (y - 1) / 100 + (y - 1) / 400

/-- A calendar date as CPython `datetime.date` stores it: year, month, day. -/
structure Date where
  year : Nat
  month : Nat
  day : Nat
deriving DecidableEq, Repr

/-- Structural calendar validity, with no upper bound on the year
(month in 1..12, day in 1..days-in-month, year ≥ 1). -/
def ValidBase (d : Date) : Prop :=
  1 ≤ d.year ∧ 1 ≤ d.month ∧ d.month ≤ 12 ∧
    1 ≤ d.day ∧ d.day ≤ daysInMonth (isLeap d.year) d.month

instance (d : Date) : Decidable (ValidBase d) := by
  unfold ValidBase; infer_instance

/-- Validity as enforced by the `datetime.date` constructor:
`MINYEAR = 1 ≤ year ≤ MAXYEAR = 9999` and a structurally valid month/day. -/
def Valid (d : Date) : Prop := ValidBase d ∧ d.year ≤ 9999

instance (d : Date) : Decidable (Valid d) := by
  unfold Valid; infer_instance

/-- CPython `_ymd2ord`: day ordinal of a date, with `⟨1,1,1⟩ ↦ 1`. -/
def toOrdinal (d : Date) : Nat :=
  daysBeforeYear d.year + daysBeforeMonth (isLeap d.year) d.month + d.day

/-- CPython `_MAXORDINAL`: the ordinal of 9999-12-31. -/
def maxOrdinal : Nat := 3652059

example : toOrdinal ⟨1, 1, 1⟩ = 1 := by decide
example : toOrdinal ⟨9999, 12, 31⟩ = maxOrdinal := by decide
example : daysBeforeYear 10000 = maxOrdinal := by decide
example : isLeap 2000 = true ∧ isLeap 1900 = false ∧ isLeap 2024 = true ∧
    isLeap 2023 = false := by decide

/-- Month/day lookup inside a year: starting from month `m` with `n` days
remaining, walk months while `n` exceeds the month length (fuel-bounded
structural recursion so the kernel can evaluate it). -/
def monthFind (leap : Bool) : Nat → Nat → Nat → Nat × Nat
  | 0, m, n => (m, n)
  | fuel + 1, m, n =>
    if daysInMonth leap m < n ∧ m < 12 then
      monthFind leap fuel (m + 1) (n - daysInMonth leap m)
    else (m, n)

/-- Year lookup: starting from year `y` with `n` days remaining, walk years
while `n` exceeds the year length, then resolve month and day. -/
def yearFind : Nat → Nat → Nat → Date
  | 0, y, n => ⟨y, 1, n⟩
  | fuel + 1, y, n =>
    if daysInYear y < n then yearFind fuel (y + 1) (n - daysInYear y)
    else
      let p := monthFind (isLeap y) 12 1 n
      ⟨y, p.1, p.2⟩

/-- CPython `_ord2ymd`: the date with day ordinal `n` (for `1 ≤ n ≤ maxOrdinal`). -/
def fromOrdinal (n : Nat) : Date := yearFind 10000 1 n

example : fromOrdinal 1 = ⟨1, 1, 1⟩ := by decide
example : fromOrdinal 365 = ⟨1, 12, 31⟩ := by decide
example : fromOrdinal 366 = ⟨2, 1, 1⟩ := by decide
example : toOrdinal ⟨2024, 2, 28⟩ + 1 = toOrdinal ⟨2024, 2, 29⟩ := by decide
example : toOrdinal ⟨2024, 2, 29⟩ + 1 = toOrdinal ⟨2024, 3, 1⟩ := by decide

/-- The calendar successor of a date: roll the day, then the month, then the
year. -/
def nextDay (d : Date) : Date :=
  if d.day < daysInMonth (isLeap d.year) d.month then ⟨d.year, d.month, d.day + 1⟩
  else if d.month < 12 then ⟨d.year, d.month + 1, 1⟩
  else ⟨d.year + 1, 1, 1⟩

theorem isLeap_iff (y : Nat) : isLeap y = true ↔ (4 ∣ y ∧ ¬(100 ∣ y)) ∨ 400 ∣ y := by
  have h1 : (400 : Nat) ∣ y → (4 : Nat) ∣ y := fun h => dvd_trans (by norm_num) h
  have h2 : (400 : Nat) ∣ y → (100 : Nat) ∣ y := fun h => dvd_trans (by norm_num) h
  simp only [isLeap, Bool.and_eq_true, beq_iff_eq, Bool.or_eq_true, bne_iff_ne, ne_eq,
    Nat.dvd_iff_mod_eq_zero] at h1 h2 ⊢
  tauto

theorem daysBeforeYear_succ (y : Nat) (hy : 1 ≤ y) :
    daysBeforeYear (y + 1) = daysBeforeYear y + daysInYear y := by
  obtain ⟨n, rfl⟩ : ∃ n, y = n + 1 := ⟨y - 1, by omega⟩
  have s4 : (n + 1) / 4 = n / 4 + if 4 ∣ (n + 1) then 1 else 0 := Nat.succ_div n 4
  have s100 : (n + 1) / 100 = n / 100 + if 100 ∣ (n + 1) then 1 else 0 := Nat.succ_div n 100
  have s400 : (n + 1) / 400 = n / 400 + if 400 ∣ (n + 1) then 1 else 0 := Nat.succ_div n 400
  have hq : n / 100 ≤ n / 4 := Nat.div_le_div_left (by norm_num) (by norm_num)
  unfold daysBeforeYear daysInYear
  cases h : isLeap (n + 1) with
  | false =>
    have hp : ¬((4 ∣ (n + 1) ∧ ¬(100 ∣ (n + 1))) ∨ 400 ∣ (n + 1)) := by
      intro hc
      exact absurd ((isLeap_iff (n + 1)).mpr hc) (by simp [h])
    simp only [Nat.add_sub_cancel, Bool.false_eq_true, if_false]
    by_cases h4 : (4 : Nat) ∣ (n + 1) <;> by_cases h100 : (100 : Nat) ∣ (n + 1) <;>
      by_cases h400 : (400 : Nat) ∣ (n + 1) <;>
      simp only [h4, h100, h400, if_true, if_false] at s4 s100 s400 <;>
      first
        | (exfalso; tauto)
        | (exfalso; exact h100 (dvd_trans (by norm_num) h400))
        | (exfalso; exact h4 (dvd_trans (by norm_num) h100))
        | omega
  | true =>
    have hp := (isLeap_iff (n + 1)).mp h
    simp only [Nat.add_sub_cancel, if_true]
    by_cases h4 : (4 : Nat) ∣ (n + 1) <;> by_cases h100 : (100 : Nat) ∣ (n + 1) <;>
      by_cases h400 : (400 : Nat) ∣ (n + 1) <;>
      simp only [h4, h100, h400, if_true, if_false] at s4 s100 s400 <;>
      first
        | (exfalso; tauto)
        | (exfalso; exact h100 (dvd_trans (by norm_num) h400))
        | (exfalso; exact h4 (dvd_trans (by norm_num) h100))
        | omega

theorem daysBeforeYear_mono {y1 y2 : Nat} (h1 : 1 ≤ y1) (h : y1 ≤ y2) :
    daysBeforeYear y1 ≤ daysBeforeYear y2 := by
  induction y2, h using Nat.le_induction with
  | base => exact le_refl _
  | succ m hm ih =>
    rw [daysBeforeYear_succ m (by omega)]
    omega

theorem daysInMonth_pos (leap : Bool) (m : Nat) (h1 : 1 ≤ m) (h2 : m ≤ 12) :
    1 ≤ daysInMonth leap m := by
  interval_cases m <;> cases leap <;> decide

theorem daysInMonth_le_31 (leap : Bool) (m : Nat) (h2 : m ≤ 12) :
    daysInMonth leap m ≤ 31 := by
  interval_cases m <;> cases leap <;> decide

theorem daysBeforeMonth_succ (leap : Bool) (m : Nat) :
    daysBeforeMonth leap (m + 1) = daysBeforeMonth leap m + daysInMonth leap m := rfl

theorem daysBeforeMonth_one (leap : Bool) : daysBeforeMonth leap 1 = 0 := by
  cases leap <;> decide

theorem daysInMonth_12 (leap : Bool) : daysInMonth leap 12 = 31 := by
  cases leap <;> decide

theorem daysBeforeMonth_mono (leap : Bool) {m1 m2 : Nat} (h : m1 ≤ m2) :
    daysBeforeMonth leap m1 ≤ daysBeforeMonth leap m2 := by
  induction h with
  | refl => exact le_refl _
  | step _ ih => exact le_trans ih (Nat.le_add_right _ _)

theorem daysBeforeMonth_13 (y : Nat) :
    daysBeforeMonth (isLeap y) 13 = daysInYear y := by
  unfold daysInYear
  cases h : isLeap y <;> simp [h] <;> decide

theorem toOrdinal_lower {d : Date} (h : ValidBase d) :
    daysBeforeYear d.year + 1 ≤ toOrdinal d := by
  obtain ⟨_, _, _, h4, _⟩ := h
  unfold toOrdinal
  omega

theorem toOrdinal_upper {d : Date} (h : ValidBase d) :
    toOrdinal d ≤ daysBeforeYear (d.year + 1) := by
  obtain ⟨hy, hm1, hm2, hd1, hd2⟩ := h
  have h1 : toOrdinal d ≤ daysBeforeYear d.year +
      daysBeforeMonth (isLeap d.year) (d.month + 1) := by
    rw [daysBeforeMonth_succ]; unfold toOrdinal; omega
  have h2 : daysBeforeMonth (isLeap d.year) (d.month + 1) ≤
      daysBeforeMonth (isLeap d.year) 13 := daysBeforeMonth_mono _ (by omega)
  rw [daysBeforeMonth_13] at h2
  rw [daysBeforeYear_succ d.year hy]
  omega

theorem toOrdinal_inj {a b : Date} (ha : ValidBase a) (hb : ValidBase b)
    (h : toOrdinal a = toOrdinal b) : a = b := by
  have hyear : a.year = b.year := by
    rcases Nat.lt_trichotomy a.year b.year with hlt | heq | hgt
    · have h1 := toOrdinal_upper ha
      have h2 := toOrdinal_lower hb
      have h3 : daysBeforeYear (a.year + 1) ≤ daysBeforeYear b.year :=
        daysBeforeYear_mono (by omega) (by omega)
      omega
    · exact heq
    · have h1 := toOrdinal_upper hb
      have h2 := toOrdinal_lower ha
      have h3 : daysBeforeYear (b.year + 1) ≤ daysBeforeYear a.year :=
        daysBeforeYear_mono (by omega) (by omega)
      omega
  obtain ⟨hya, hm1a, hm2a, hd1a, hd2a⟩ := ha
  obtain ⟨hyb, hm1b, hm2b, hd1b, hd2b⟩ := hb
  unfold toOrdinal at h
  rw [hyear] at h hd2a
  have hmonth : a.month = b.month := by
    rcases Nat.lt_trichotomy a.month b.month with hlt | heq | hgt
    · have h1 : daysBeforeMonth (isLeap b.year) a.month + a.day ≤
          daysBeforeMonth (isLeap b.year) (a.month + 1) := by
        rw [daysBeforeMonth_succ]; omega
      have h2 : daysBeforeMonth (isLeap b.year) (a.month + 1) ≤
          daysBeforeMonth (isLeap b.year) b.month := daysBeforeMonth_mono _ (by omega)
      omega
    · exact heq
    · have h1 : daysBeforeMonth (isLeap b.year) b.month + b.day ≤
          daysBeforeMonth (isLeap b.year) (b.month + 1) := by
        rw [daysBeforeMonth_succ]; omega
      have h2 : daysBeforeMonth (isLeap b.year) (b.month + 1) ≤
          daysBeforeMonth (isLeap b.year) a.month := daysBeforeMonth_mono _ (by omega)
      omega
  have hday : a.day = b.day := by rw [hmonth] at h; omega
  cases a; cases b
  simp_all

theorem nextDay_validBase {d : Date} (h : ValidBase d) : ValidBase (nextDay d) := by
  obtain ⟨hy, hm1, hm2, hd1, hd2⟩ := h
  unfold nextDay ValidBase
  split_ifs with h1 h2 <;> dsimp only
  · exact ⟨hy, hm1, hm2, by omega, by omega⟩
  · exact ⟨hy, by omega, by omega, le_refl _, daysInMonth_pos _ _ (by omega) (by omega)⟩
  · exact ⟨by omega, by omega, by omega, le_refl _, daysInMonth_pos _ _ (by omega) (by omega)⟩

theorem toOrdinal_nextDay {d : Date} (h : ValidBase d) :
    toOrdinal (nextDay d) = toOrdinal d + 1 := by
  obtain ⟨hy, hm1, hm2, hd1, hd2⟩ := h
  unfold nextDay
  split_ifs with h1 h2 <;> unfold toOrdinal <;> dsimp only
  · omega
  · rw [daysBeforeMonth_succ]
    omega
  · have hm12 : d.month = 12 := by omega
    have hd31 : d.day = 31 := by rw [hm12, daysInMonth_12] at hd2 h1; omega
    rw [daysBeforeMonth_one, daysBeforeYear_succ d.year hy]
    have h13 := daysBeforeMonth_13 d.year
    rw [show (13 : Nat) = 12 + 1 from rfl, daysBeforeMonth_succ, daysInMonth_12] at h13
    rw [hm12, hd31]
    omega

theorem toOrdinal_iterate_nextDay (k : Nat) {d : Date} (h : ValidBase d) :
    ValidBase (nextDay^[k] d) ∧ toOrdinal (nextDay^[k] d) = toOrdinal d + k := by
  induction k with
  | zero => simpa using h
  | succ k ih =>
    obtain ⟨hv, ho⟩ := ih
    rw [Function.iterate_succ_apply']
    exact ⟨nextDay_validBase hv, by rw [toOrdinal_nextDay hv, ho]; omega⟩

theorem monthFind_correct (leap : Bool) (fuel : Nat) :
    ∀ m n, 1 ≤ m → 1 ≤ n → m + fuel = 13 →
      daysBeforeMonth leap m + n ≤ daysBeforeMonth leap 13 →
      1 ≤ (monthFind leap fuel m n).1 ∧ (monthFind leap fuel m n).1 ≤ 12 ∧
        1 ≤ (monthFind leap fuel m n).2 ∧
        (monthFind leap fuel m n).2 ≤ daysInMonth leap (monthFind leap fuel m n).1 ∧
        daysBeforeMonth leap (monthFind leap fuel m n).1 + (monthFind leap fuel m n).2
          = daysBeforeMonth leap m + n := by
  induction fuel with
  | zero =>
    intro m n h1 hn hf hb
    rw [show m = 13 by omega] at hb
    omega
  | succ fuel ih =>
    intro m n h1 hn hf hb
    simp only [monthFind]
    split_ifs with hc
    · have hb2 : daysBeforeMonth leap (m + 1) + (n - daysInMonth leap m) ≤
          daysBeforeMonth leap 13 := by
        rw [daysBeforeMonth_succ]; omega
      have := ih (m + 1) (n - daysInMonth leap m) (by omega) (by omega) (by omega) hb2
      rw [daysBeforeMonth_succ] at this
      omega
    · dsimp only
      refine ⟨h1, by omega, hn, ?_, rfl⟩
      by_cases hm : m < 12
      · omega
      · have hm12 : m = 12 := by omega
        have h13 : daysBeforeMonth leap 13 =
            daysBeforeMonth leap 12 + daysInMonth leap 12 := rfl
        rw [hm12] at hb ⊢
        omega

theorem yearFind_correct (fuel : Nat) :
    ∀ y n, 1 ≤ y → 1 ≤ n → daysBeforeYear y + n ≤ daysBeforeYear (y + fuel) →
      ValidBase (yearFind fuel y n) ∧ toOrdinal (yearFind fuel y n) = daysBeforeYear y + n := by
  induction fuel with
  | zero =>
    intro y n hy hn hb
    rw [Nat.add_zero] at hb
    omega
  | succ fuel ih =>
    intro y n hy hn hb
    simp only [yearFind]
    split_ifs with hc
    · have hsucc := daysBeforeYear_succ y hy
      have hb2 : daysBeforeYear (y + 1) + (n - daysInYear y) ≤
          daysBeforeYear (y + 1 + fuel) := by
        rw [show y + 1 + fuel = y + (fuel + 1) by omega]
        omega
      have := ih (y + 1) (n - daysInYear y) (by omega) (by omega) hb2
      constructor
      · exact this.1
      · rw [this.2]
        omega
    · have hmb : daysBeforeMonth (isLeap y) 1 + n ≤ daysBeforeMonth (isLeap y) 13 := by
        rw [daysBeforeMonth_one, daysBeforeMonth_13]
        omega
      have hmf := monthFind_correct (isLeap y) 12 1 n (by omega) hn (by omega) hmb
      rw [daysBeforeMonth_one] at hmf
      refine ⟨⟨hy, hmf.1, hmf.2.1, hmf.2.2.1, hmf.2.2.2.1⟩, ?_⟩
      unfold toOrdinal
      dsimp only
      omega

theorem fromOrdinal_correct {n : Nat} (h1 : 1 ≤ n) (h2 : n ≤ maxOrdinal) :
    Valid (fromOrdinal n) ∧ toOrdinal (fromOrdinal n) = n := by
  have hb1 : daysBeforeYear 1 = 0 := by decide
  have hbmax : daysBeforeYear 10000 = 3652059 := by decide
  have hmono : daysBeforeYear 10000 ≤ daysBeforeYear (1 + 10000) :=
    daysBeforeYear_mono (by norm_num) (by norm_num)
  have hyf := yearFind_correct 10000 1 n (by norm_num) h1
    (by rw [hb1]; unfold maxOrdinal at h2; omega)
  unfold fromOrdinal
  rw [hb1] at hyf
  obtain ⟨hv, ho⟩ := hyf
  refine ⟨⟨hv, ?_⟩, by omega⟩
  by_contra hgt
  have hy10000 : 10000 ≤ (yearFind 10000 1 n).year := by omega
  have h1b := toOrdinal_lower hv
  have h2b : daysBeforeYear 10000 ≤ daysBeforeYear (yearFind 10000 1 n).year :=
    daysBeforeYear_mono (by norm_num) hy10000
  unfold maxOrdinal at h2
  omega

theorem toOrdinal_range {d : Date} (h : Valid d) :
    1 ≤ toOrdinal d ∧ toOrdinal d ≤ maxOrdinal := by
  obtain ⟨hb, hy⟩ := h
  have h1 := toOrdinal_lower hb
  have h2 := toOrdinal_upper hb
  have h3 : daysBeforeYear (d.year + 1) ≤ daysBeforeYear 10000 :=
    daysBeforeYear_mono (by omega) (by omega)
  have hbmax : daysBeforeYear 10000 = 3652059 := by decide
  unfold maxOrdinal
  omega

/-- Round-trip: converting a valid date to its ordinal and back is the
identity. -/
theorem fromOrdinal_toOrdinal {d : Date} (h : Valid d) :
    fromOrdinal (toOrdinal d) = d := by
  obtain ⟨h1, h2⟩ := toOrdinal_range h
  obtain ⟨hv, ho⟩ := fromOrdinal_correct h1 h2
  exact toOrdinal_inj hv.1 h.1 ho

/-! ## The program: `inject_date_variance`, `validate_date`, `main` -/

/-- The error outcomes of a run of the program.
`invalidFormat` is the `ValueError` raised by `validate_date` (src/main.py:65-68);
`rangeExceeded r m` is the `ValueError` raised at src/main.py:87-90, which
interpolates both the requested range and the configured maximum into its
message; `overflow` is the `OverflowError` raised by
`date + timedelta(days=variance)` when the result leaves years 1..9999, caught
by the generic `except Exception` handler (src/main.py:120-122). -/
inductive ErrKind where
  | invalidFormat : ErrKind
  | rangeExceeded : Int → Int → ErrKind
  | overflow : ErrKind
deriving DecidableEq, Repr

instance : DecidableEq (Except ErrKind Date) := fun a b =>
  match a, b with
  | .error x, .error y => decidable_of_iff (x = y) (by simp)
  | .error _, .ok _ => isFalse (by simp)
  | .ok _, .error _ => isFalse (by simp)
  | .ok x, .ok y => decidable_of_iff (x = y) (by simp)

/-- `date_obj + datetime.timedelta(days=v)` (src/main.py:94): CPython converts
the date to its ordinal, adds the day delta, and converts back, raising
`OverflowError` (`none` here) when the resulting ordinal leaves
`[1, maxOrdinal]`. -/
def addDays (d : Date) (v : Int) : Option Date :=
  if 1 ≤ (toOrdinal d : Int) + v ∧ (toOrdinal d : Int) + v ≤ (maxOrdinal : Int)
  then some (fromOrdinal ((toOrdinal d : Int) + v).toNat) else none

/-- The contract of `random.randint(-abs(range_days), abs(range_days))`
(src/main.py:92): the drawn value lies in the closed interval `[-|r|, |r|]`.
The draw itself is passed explicitly as `v` to the functions below. -/
def drawOk (r v : Int) : Prop := -|r| ≤ v ∧ v ≤ |r|

instance (r v : Int) : Decidable (drawOk r v) := by
  unfold drawOk; infer_instance

/-- `inject_date_variance(date_obj, range_days, max_range)` (src/main.py:71-95)
with the random draw `v` made explicit: first the range check
`abs(range_days) > max_range` raising `ValueError` with both values, then the
day shift, whose `OverflowError` is surfaced as `.error .overflow`. -/
def injectDateVariance (d : Date) (range_days max_range v : Int) :
    Except ErrKind Date :=
  if max_range < |range_days| then .error (.rangeExceeded range_days max_range)
  else
    match addDays d v with
    | some d' => .ok d'
    | none => .error .overflow

/-- Start codepoints of the Unicode decimal-digit (category Nd) runs of the
interpreter's `unicodedata`; every Nd run is ten consecutive codepoints with
digit values 0..9.  The regex class `\d` of a CPython `str` pattern matches
exactly these characters, and `int()` converts them by their digit value. -/
def ndRunStarts : List Nat :=
  [0x30, 0x660, 0x6F0, 0x7C0, 0x966, 0x9E6, 0xA66, 0xAE6, 0xB66, 0xBE6,
   0xC66, 0xCE6, 0xD66, 0xDE6, 0xE50, 0xED0, 0xF20, 0x1040, 0x1090, 0x17E0,
   0x1810, 0x1946, 0x19D0, 0x1A80, 0x1A90, 0x1B50, 0x1BB0, 0x1C40, 0x1C50,
   0xA620, 0xA8D0, 0xA900, 0xA9D0, 0xA9F0, 0xAA50, 0xABF0, 0xFF10, 0x104A0,
   0x10D30, 0x11066, 0x110F0, 0x11136, 0x111D0, 0x112F0, 0x11450, 0x114D0,
   0x11650, 0x116C0, 0x11730, 0x118E0, 0x11950, 0x11C50, 0x11D50, 0x11DA0,
   0x16A60, 0x16AC0, 0x16B50, 0x1D7CE, 0x1D7D8, 0x1D7E2, 0x1D7EC, 0x1D7F6,
   0x1E140, 0x1E2F0, 0x1E950, 0x1FBF0]

/-- The `\d` character class of the CPython `_strptime` regexes on `str`
input: any Unicode decimal digit (category Nd), not only ASCII `0-9`. -/
def isDigitChar (c : Char) : Bool :=
  ndRunStarts.any (fun s => s ≤ c.toNat && c.toNat ≤ s + 9)

/-- Digit value of a Unicode decimal digit (its offset inside its Nd run);
0 for non-digits, which only arises for the leading space of a
space-padded day, where `int()` strips the space. -/
def digitVal (c : Char) : Nat :=
  ((ndRunStarts.find? (fun s => s ≤ c.toNat && c.toNat ≤ s + 9)).map
    (fun s => c.toNat - s)).getD 0

/-- Numeric value of a matched field, as Python `int()` on the captured
group (Unicode digits allowed, leading whitespace stripped). -/
def natOfDigits (l : List Char) : Nat :=
  l.foldl (fun a c => 10 * a + digitVal c) 0

/-- The `%m` field regex of CPython `_strptime`, `1[0-2]|0[1-9]|[1-9]`,
matched against the entire digit run before the second dash.  All its
character classes are explicit ASCII ranges, so no Unicode digits here. -/
def monthRunOK (ms : List Char) : Bool :=
  match ms with
  | [c] => decide ('1' ≤ c ∧ c ≤ '9')
  | [c1, c2] =>
    (c1 == '1' && decide ('0' ≤ c2 ∧ c2 ≤ '2')) ||
      (c1 == '0' && decide ('1' ≤ c2 ∧ c2 ≤ '9'))
  | _ => false

/-- The `%d` field regex of CPython `_strptime`,
`3[0-1]|[1-2]\d|0[1-9]|[1-9]| [1-9]`, matched against the entire remainder
of the string after the second dash (the "unconverted data remains" check
makes the field consume everything).  `[1-2]\d` admits a Unicode decimal
digit in second position; ` [1-9]` is the space-padded single-digit day. -/
def dayRunOK (ds : List Char) : Bool :=
  match ds with
  | [c] => decide ('1' ≤ c ∧ c ≤ '9')
  | [c1, c2] =>
    (c1 == '3' && decide ('0' ≤ c2 ∧ c2 ≤ '1')) ||
      (decide ('1' ≤ c1 ∧ c1 ≤ '2') && isDigitChar c2) ||
      (c1 == '0' && decide ('1' ≤ c2 ∧ c2 ≤ '9')) ||
      (c1 == ' ' && decide ('1' ≤ c2 ∧ c2 ≤ '9'))
  | _ => false

/-- Final step of `datetime.datetime.strptime(s, "%Y-%m-%d")`: the matched
fields are fed to the `datetime` constructor, which enforces calendar
validity (`MINYEAR ≤ year ≤ MAXYEAR`, month 1..12, day 1..days-in-month)
and raises `ValueError` otherwise. -/
def mkDate (y : Nat) (ms ds : List Char) : Option Date :=
  if Valid ⟨y, natOfDigits ms, natOfDigits ds⟩
  then some ⟨y, natOfDigits ms, natOfDigits ds⟩ else none

/-- After the year and its dash: the `%m` field can only consume digits, so
in a successful match the month field is the entire digit run up to the
literal `-`, and the `%d` field together with the "unconverted data
remains" check must account for the entire remainder of the string.
Returns the month run and that remainder. -/
def parseTail (rest : List Char) : Option (List Char × List Char) :=
  match rest.dropWhile isDigitChar with
  | c :: rest3 => if c = '-' then some (rest.takeWhile isDigitChar, rest3) else none
  | [] => none

/-- `validate_date` (src/main.py:49-68), i.e.
`datetime.datetime.strptime(date_str, "%Y-%m-%d").date()` on the string's
characters.  The compiled `_strptime` regex is
`(\d\d\d\d)-(1[0-2]|0[1-9]|[1-9])-(3[0-1]|[1-2]\d|0[1-9]|[1-9]| [1-9])`,
anchored at the start, followed by the "unconverted data remains" check
that the whole string was consumed; finally the `datetime` constructor
validates the date.  `none` models the `ValueError` reported as an
invalid-format error. -/
def parseDateChars (cs : List Char) : Option Date :=
  match cs with
  | y1 :: y2 :: y3 :: y4 :: c5 :: rest =>
    if (isDigitChar y1 && isDigitChar y2 && isDigitChar y3 && isDigitChar y4) = true ∧
        c5 = '-' then
      match parseTail rest with
      | some (ms, ds) =>
        if (monthRunOK ms && dayRunOK ds) = true then
          mkDate (natOfDigits [y1, y2, y3, y4]) ms ds
        else none
      | none => none
    else none
  | _ => none

/-- Digit character for a value 0..9, used by `strftime` rendering. -/
def digitChar (n : Nat) : Char := Char.ofNat (48 + n)

/-- A number rendered as exactly two digits, zero-padded (`%m`, `%d`). -/
def pad2 (n : Nat) : List Char := [digitChar (n / 10), digitChar (n % 10)]

/-- A number rendered as exactly four digits, zero-padded. -/
def pad4 (n : Nat) : List Char :=
  [digitChar (n / 1000), digitChar (n / 100 % 10), digitChar (n / 10 % 10),
    digitChar (n % 10)]

/-- `%Y` as CPython/glibc `strftime` renders it: the year as a plain
decimal number, NOT zero-padded, so years below 1000 print with fewer than
four digits (`date(5,1,2).strftime("%Y")` is `"5"`). -/
def formatYear (y : Nat) : List Char :=
  if y < 10 then [digitChar y]
  else if y < 100 then [digitChar (y / 10), digitChar (y % 10)]
  else if y < 1000 then [digitChar (y / 100), digitChar (y / 10 % 10), digitChar (y % 10)]
  else pad4 y

/-- `modified_date.strftime("%Y-%m-%d")` (src/main.py:113 with the default
`--format`): unpadded year, two-digit zero-padded month and day,
dash-separated. -/
def formatDefault (d : Date) : List Char :=
  formatYear d.year ++ '-' :: (pad2 d.month ++ '-' :: pad2 d.day)

/-- Observable outcome of one run of `main` (src/main.py:98-122): what was
printed to standard output, which error (if any) was logged to standard
error, and the process exit status. -/
structure RunResult where
  printed : Option (List Char)
  logged : Option ErrKind
  exitCode : Nat
deriving DecidableEq, Repr

/-- `main()` (src/main.py:98-122) at the default `--format "%Y-%m-%d"`, with
the random draw `v` explicit: validate the date (a parse failure raises
`ValueError`, which is logged and exits 1 printing nothing); inject the
variance (range and overflow errors likewise exit 1 printing nothing);
otherwise print the formatted date and exit 0. -/
def mainRun (dateArg : List Char) (range_days max_range v : Int) : RunResult :=
  match parseDateChars dateArg with
  | none => ⟨none, some .invalidFormat, 1⟩
  | some d =>
    match injectDateVariance d range_days max_range v with
    | .error e => ⟨none, some e, 1⟩
    | .ok d' => ⟨some (formatDefault d'), none, 0⟩

/-- `main` with the process-wide random generator modelled as a stream of
draws `σ : Nat → Int`; `random.randint` consumes the first draw. -/
def mainRunStream (dateArg : List Char) (range_days max_range : Int)
    (σ : Nat → Int) : RunResult :=
  mainRun dateArg range_days max_range (σ 0)

example : parseDateChars ['2', '0', '2', '3', '-', '1', '0', '-', '2', '6'] =
    some ⟨2023, 10, 26⟩ := by decide
example : parseDateChars ['2', '0', '2', '3', '-', '1', '-', '5'] =
    some ⟨2023, 1, 5⟩ := by decide
example : parseDateChars ['2', '0', '2', '3', '/', '1', '0', '/', '2', '6'] =
    none := by decide
example : parseDateChars ['2', '0', '2', '3', '-', '1', '3', '-', '0', '1'] =
    none := by decide
example : parseDateChars ['2', '0', '2', '3', '-', '0', '2', '-', '3', '0'] =
    none := by decide
example : parseDateChars ['2', '0', '2', '4', '-', '0', '2', '-', '2', '9'] =
    some ⟨2024, 2, 29⟩ := by decide
example : parseDateChars ['2', '0', '2', '3', '-', '1', '0', '-', ' ', '5'] =
    some ⟨2023, 10, 5⟩ := by decide
example : parseDateChars ['٢', '٠', '٢', '٣', '-', '1', '0', '-', '2', '6'] =
    some ⟨2023, 10, 26⟩ := by decide
example : parseDateChars ['2', '0', '2', '3', '-', '1', '0', '-', '1', '٥'] =
    some ⟨2023, 10, 15⟩ := by decide
example : parseDateChars ['2', '0', '2', '3', '-', '1', '0', '-', '3', '٥'] =
    none := by decide
example : parseDateChars ['2', '0', '2', '3', '-', '١', '٢', '-', '2', '6'] =
    none := by decide
example : parseDateChars ['2', '0', '2', '3', '-', ' ', '5', '-', '2', '6'] =
    none := by decide
example : parseDateChars ['2', '0', '2', '3', '-', '1', '0', '-', '0', '5', ' '] =
    none := by decide
example : formatDefault ⟨2023, 1, 5⟩ =
    ['2', '0', '2', '3', '-', '0', '1', '-', '0', '5'] := by decide
example : formatDefault ⟨5, 1, 2⟩ = ['5', '-', '0', '1', '-', '0', '2'] := by decide
example : injectDateVariance ⟨2023, 10, 26⟩ 50 30 0 =
    .error (.rangeExceeded 50 30) := by decide

/-! ## Parser characterization -/

theorem dropWhile_all_append {p : Char → Bool} (l t : List Char)
    (hl : ∀ c ∈ l, p c = true) : (l ++ t).dropWhile p = t.dropWhile p := by
  induction l with
  | nil => rfl
  | cons a l ih =>
    have ha : p a = true := hl a (List.mem_cons_self a l)
    simp only [List.cons_append, List.dropWhile_cons, ha, if_true]
    exact ih (fun c hc => hl c (List.mem_cons_of_mem a hc))

theorem takeWhile_all_append {p : Char → Bool} (l t : List Char)
    (hl : ∀ c ∈ l, p c = true) : (l ++ t).takeWhile p = l ++ t.takeWhile p := by
  induction l with
  | nil => rfl
  | cons a l ih =>
    have ha : p a = true := hl a (List.mem_cons_self a l)
    simp only [List.cons_append, List.takeWhile_cons, ha, if_true]
    rw [ih (fun c hc => hl c (List.mem_cons_of_mem a hc))]

theorem dropWhile_all {p : Char → Bool} (l : List Char)
    (hl : ∀ c ∈ l, p c = true) : l.dropWhile p = [] := by
  have := dropWhile_all_append l [] hl
  simpa using this

theorem takeWhile_all {p : Char → Bool} (l : List Char)
    (hl : ∀ c ∈ l, p c = true) : l.takeWhile p = l := by
  have := takeWhile_all_append l [] hl
  simpa using this

theorem mem_takeWhile_p {p : Char → Bool} (l : List Char) :
    ∀ c ∈ l.takeWhile p, p c = true := by
  induction l with
  | nil => intro c hc; cases hc
  | cons a l ih =>
    intro c hc
    rw [List.takeWhile_cons] at hc
    by_cases ha : p a = true
    · rw [if_pos ha] at hc
      rcases List.mem_cons.mp hc with rfl | hmem
      · exact ha
      · exact ih c hmem
    · rw [if_neg ha] at hc
      cases hc

theorem isDigitChar_dash : isDigitChar '-' = false := by decide

theorem parseTail_some_iff (rest ms ds : List Char) :
    parseTail rest = some (ms, ds) ↔
      rest = ms ++ '-' :: ds ∧ (∀ c ∈ ms, isDigitChar c = true) := by
  constructor
  · intro h
    unfold parseTail at h
    rcases hdw : rest.dropWhile isDigitChar with _ | ⟨c, rest3⟩ <;> rw [hdw] at h
    · exact Option.noConfusion h
    · dsimp only at h
      split_ifs at h with hc
      subst hc
      injection h with h
      have h1 : ms = rest.takeWhile isDigitChar := (Prod.mk.injEq _ _ _ _ ▸ h).1.symm
      have h2 : ds = rest3 := (Prod.mk.injEq _ _ _ _ ▸ h).2.symm
      have hrest : rest = ms ++ '-' :: rest3 := by
        rw [h1]
        conv_lhs => rw [← List.takeWhile_append_dropWhile (p := isDigitChar) (l := rest)]
        rw [hdw]
      exact ⟨by rw [hrest, h2], by rw [h1]; exact mem_takeWhile_p rest⟩
  · rintro ⟨hrest, hms⟩
    subst hrest
    unfold parseTail
    have hdw : (ms ++ '-' :: ds).dropWhile isDigitChar = '-' :: ds := by
      rw [dropWhile_all_append (p := isDigitChar) ms ('-' :: ds) (fun c hc => hms c hc)]
      simp [List.dropWhile_cons, isDigitChar_dash]
    rw [hdw]
    dsimp only
    rw [if_pos rfl]
    have htw : (ms ++ '-' :: ds).takeWhile isDigitChar = ms := by
      rw [takeWhile_all_append (p := isDigitChar) ms ('-' :: ds) (fun c hc => hms c hc)]
      simp [List.takeWhile_cons, isDigitChar_dash]
    rw [htw]

/-- Spec-side characterization of the strings `validate_date` accepts, and
the date each one denotes: a run of exactly four Unicode decimal digits for
the year, a dash, a digit run matching the `%m` regex, a dash, and a
remainder matching the `%d` regex (one or two digits, or a space-padded
single digit), such that the resulting triple is a constructible calendar
date. -/
def ParsesTo (cs : List Char) (d : Date) : Prop :=
  ∃ ys ms ds : List Char,
    cs = ys ++ '-' :: (ms ++ '-' :: ds) ∧
    ys.length = 4 ∧ (∀ c ∈ ys, isDigitChar c = true) ∧
    (∀ c ∈ ms, isDigitChar c = true) ∧
    monthRunOK ms = true ∧ dayRunOK ds = true ∧
    d = ⟨natOfDigits ys, natOfDigits ms, natOfDigits ds⟩ ∧ Valid d

theorem parse_iff (cs : List Char) (d : Date) :
    parseDateChars cs = some d ↔ ParsesTo cs d := by
  constructor
  · intro h
    unfold parseDateChars at h
    rcases cs with _ | ⟨y1, _ | ⟨y2, _ | ⟨y3, _ | ⟨y4, _ | ⟨c5, rest⟩⟩⟩⟩⟩ <;>
      try exact Option.noConfusion h
    dsimp only at h
    split_ifs at h with hg
    obtain ⟨hdig, hdash⟩ := hg
    subst hdash
    rcases hpt : parseTail rest with _ | ⟨ms, ds⟩ <;> rw [hpt] at h
    · exact Option.noConfusion h
    · dsimp only at h
      split_ifs at h with hrun
      unfold mkDate at h
      split_ifs at h with hvalid
      injection h with h
      rw [Bool.and_eq_true] at hrun
      obtain ⟨hrest, hms⟩ := (parseTail_some_iff rest ms ds).mp hpt
      refine ⟨[y1, y2, y3, y4], ms, ds, ?_, rfl, ?_, hms, hrun.1, hrun.2, h.symm, ?_⟩
      · rw [hrest]; rfl
      · intro c hc
        simp only [Bool.and_eq_true] at hdig
        simp only [List.mem_cons, List.not_mem_nil, or_false] at hc
        rcases hc with rfl | rfl | rfl | rfl
        · exact hdig.1.1.1
        · exact hdig.1.1.2
        · exact hdig.1.2
        · exact hdig.2
      · rw [← h]; exact hvalid
  · rintro ⟨ys, ms, ds, hcs, hlen, hys, hms, hmr, hdr, hd, hvalid⟩
    rcases ys with _ | ⟨a, _ | ⟨b, _ | ⟨c, _ | ⟨e, _ | ⟨f, tl⟩⟩⟩⟩⟩ <;> simp at hlen
    subst hcs
    unfold parseDateChars
    simp only [List.cons_append, List.nil_append]
    have hg : (isDigitChar a && isDigitChar b && isDigitChar c && isDigitChar e) = true ∧
        True := by
      refine ⟨?_, trivial⟩
      simp only [Bool.and_eq_true]
      exact ⟨⟨⟨hys a (by simp), hys b (by simp)⟩, hys c (by simp)⟩, hys e (by simp)⟩
    rw [if_pos hg]
    rw [(parseTail_some_iff (ms ++ '-' :: ds) ms ds).mpr ⟨rfl, hms⟩]
    dsimp only
    rw [if_pos (by simp [hmr, hdr] : (monthRunOK ms && dayRunOK ds) = true)]
    unfold mkDate
    rw [hd] at hvalid
    rw [if_pos hvalid, hd]

theorem parse_valid {cs : List Char} {d : Date} (h : parseDateChars cs = some d) :
    Valid d := by
  obtain ⟨ys, ms, ds, _, _, _, _, _, _, _, hvalid⟩ := (parse_iff cs d).mp h
  exact hvalid

/-! ## Formatting -/

theorem isDigitChar_digitChar {k : Nat} (h : k ≤ 9) : isDigitChar (digitChar k) = true := by
  interval_cases k <;> decide

theorem digitVal_digitChar {k : Nat} (h : k ≤ 9) : digitVal (digitChar k) = k := by
  interval_cases k <;> decide

theorem natOfDigits_pad2 {n : Nat} (h : n ≤ 99) : natOfDigits (pad2 n) = n := by
  unfold natOfDigits pad2
  simp only [List.foldl]
  rw [digitVal_digitChar (by omega), digitVal_digitChar (by omega)]
  omega

theorem natOfDigits_pad4 {n : Nat} (h : n ≤ 9999) : natOfDigits (pad4 n) = n := by
  unfold natOfDigits pad4
  simp only [List.foldl]
  rw [digitVal_digitChar (by omega), digitVal_digitChar (by omega),
    digitVal_digitChar (by omega), digitVal_digitChar (by omega)]
  omega

theorem pad2_digits {n : Nat} (h : n ≤ 99) : ∀ c ∈ pad2 n, isDigitChar c = true := by
  intro c hc
  unfold pad2 at hc
  simp only [List.mem_cons, List.not_mem_nil, or_false] at hc
  rcases hc with rfl | rfl
  · exact isDigitChar_digitChar (by omega)
  · exact isDigitChar_digitChar (by omega)

theorem pad4_digits {n : Nat} (h : n ≤ 9999) : ∀ c ∈ pad4 n, isDigitChar c = true := by
  intro c hc
  unfold pad4 at hc
  simp only [List.mem_cons, List.not_mem_nil, or_false] at hc
  rcases hc with rfl | rfl | rfl | rfl <;> exact isDigitChar_digitChar (by omega)

theorem monthRunOK_pad2 {m : Nat} (h1 : 1 ≤ m) (h2 : m ≤ 12) :
    monthRunOK (pad2 m) = true := by
  interval_cases m <;> decide

theorem dayRunOK_pad2 {n : Nat} (h1 : 1 ≤ n) (h2 : n ≤ 31) :
    dayRunOK (pad2 n) = true := by
  interval_cases n <;> decide

theorem formatYear_pad4 {y : Nat} (h : 1000 ≤ y) : formatYear y = pad4 y := by
  unfold formatYear
  rw [if_neg (by omega), if_neg (by omega), if_neg (by omega)]

/-- Round-trip: formatting a valid date whose year has four digits with the
default pattern and re-parsing it yields the same date.  (For years below
1000 the unpadded `%Y` output fails to re-parse.) -/
theorem parse_format_roundtrip {d : Date} (h : Valid d) (hy : 1000 ≤ d.year) :
    parseDateChars (formatDefault d) = some d := by
  obtain ⟨⟨hy1, hm1, hm2, hd1, hd2⟩, hy2⟩ := h
  have hdmax : d.day ≤ 31 :=
    le_trans hd2 (daysInMonth_le_31 (isLeap d.year) d.month hm2)
  have hmval : natOfDigits (pad2 d.month) = d.month := natOfDigits_pad2 (by omega)
  have hdval : natOfDigits (pad2 d.day) = d.day := natOfDigits_pad2 (by omega)
  have hyval : natOfDigits (pad4 d.year) = d.year := natOfDigits_pad4 (by omega)
  apply (parse_iff (formatDefault d) d).mpr
  unfold formatDefault
  rw [formatYear_pad4 hy]
  refine ⟨pad4 d.year, pad2 d.month, pad2 d.day, rfl, rfl, pad4_digits (by omega),
    pad2_digits (by omega), monthRunOK_pad2 hm1 hm2, dayRunOK_pad2 hd1 hdmax, ?_, ?_⟩
  · rw [hyval, hmval, hdval]
  · exact ⟨⟨hy1, hm1, hm2, hd1, hd2⟩, hy2⟩

/-! ## Variance injection -/

theorem addDays_some_spec {d : Date} {v : Int} {d2 : Date}
    (h : addDays d v = some d2) :
    1 ≤ (toOrdinal d : Int) + v ∧ (toOrdinal d : Int) + v ≤ (maxOrdinal : Int) ∧
      Valid d2 ∧ (toOrdinal d2 : Int) = (toOrdinal d : Int) + v := by
  unfold addDays at h
  split_ifs at h with h2
  obtain ⟨hlo, hhi⟩ := h2
  injection h with h
  have hn1 : 1 ≤ ((toOrdinal d : Int) + v).toNat := by omega
  have hn2 : ((toOrdinal d : Int) + v).toNat ≤ maxOrdinal := by omega
  obtain ⟨hv2, ho2⟩ := fromOrdinal_correct hn1 hn2
  rw [h] at hv2 ho2
  exact ⟨hlo, hhi, hv2, by omega⟩

theorem inject_ok_spec {d : Date} {r m v : Int} {d2 : Date}
    (h : injectDateVariance d r m v = Except.ok d2) :
    |r| ≤ m ∧ 1 ≤ (toOrdinal d : Int) + v ∧ (toOrdinal d : Int) + v ≤ (maxOrdinal : Int) ∧
      Valid d2 ∧ (toOrdinal d2 : Int) = (toOrdinal d : Int) + v := by
  unfold injectDateVariance at h
  split_ifs at h with h1
  rcases hA : addDays d v with _ | d3 <;> rw [hA] at h <;> dsimp only at h
  · exact Except.noConfusion h
  · injection h with h
    subst h
    obtain ⟨ha, hb, hc, he⟩ := addDays_some_spec hA
    exact ⟨by omega, ha, hb, hc, he⟩

theorem inject_ok_of_inrange {d : Date} {r m v : Int} (hrm : |r| ≤ m)
    (h1 : 1 ≤ (toOrdinal d : Int) + v) (h2 : (toOrdinal d : Int) + v ≤ (maxOrdinal : Int)) :
    injectDateVariance d r m v =
      Except.ok (fromOrdinal ((toOrdinal d : Int) + v).toNat) := by
  unfold injectDateVariance addDays
  rw [if_neg (not_lt.mpr hrm), if_pos ⟨h1, h2⟩]

theorem inject_overflow_of_outrange {d : Date} {r m v : Int} (hrm : |r| ≤ m)
    (h : (toOrdinal d : Int) + v < 1 ∨ (maxOrdinal : Int) < (toOrdinal d : Int) + v) :
    injectDateVariance d r m v = Except.error ErrKind.overflow := by
  unfold injectDateVariance addDays
  rw [if_neg (not_lt.mpr hrm), if_neg (by omega)]

/-- The pattern of claim C4 read literally: exactly ten characters
`YYYY-MM-DD` with a four-digit year, a two-digit zero-padded month with
value 01..12 and a two-digit zero-padded day valid for that month and year. -/
def strictPatternOK (cs : List Char) : Bool :=
  match cs with
  | [a, b, c, d, s1, e, f, s2, g, h] =>
    a.isDigit && b.isDigit && c.isDigit && d.isDigit &&
    (s1 == '-') && (s2 == '-') &&
    e.isDigit && f.isDigit && g.isDigit && h.isDigit &&
    decide (1 ≤ natOfDigits [e, f]) && decide (natOfDigits [e, f] ≤ 12) &&
    decide (1 ≤ natOfDigits [g, h]) &&
    decide (natOfDigits [g, h] ≤
      daysInMonth (isLeap (natOfDigits [a, b, c, d])) (natOfDigits [e, f]))
  | _ => false

/-! ## Claims -/

/-- C1: for every valid date `d`, range `r` and maximum `m` with `|r| ≤ m`,
and every draw `v` within `randint`'s contract `-|r| ≤ v ≤ |r|`, if the
injection returns a date then that date is a valid calendar date whose
ordinal is exactly `toOrdinal d + v` — so it lies in
`[d - |r| days, d + |r| days]` — and it is reached from `d` by iterating the
calendar successor (correct rolling over month, year and leap-year
boundaries) exactly `v` times (backwards for negative `v`). -/
theorem claim1_variance_within_range {d : Date} {r m v : Int} {d' : Date}
    (hd : Valid d) (hrm : |r| ≤ m) (hv : drawOk r v)
    (h : injectDateVariance d r m v = Except.ok d') :
    Valid d' ∧ (toOrdinal d' : Int) = (toOrdinal d : Int) + v ∧
      (toOrdinal d : Int) - |r| ≤ (toOrdinal d' : Int) ∧
      (toOrdinal d' : Int) ≤ (toOrdinal d : Int) + |r| ∧
      (0 ≤ v → nextDay^[v.toNat] d = d') ∧
      (v < 0 → nextDay^[(-v).toNat] d' = d) := by
  obtain ⟨_, h1, h2, hval, hord⟩ := inject_ok_spec h
  obtain ⟨hv1, hv2⟩ := hv
  refine ⟨hval, hord, by omega, by omega, ?_, ?_⟩
  · intro hvpos
    obtain ⟨hitv, hito⟩ := toOrdinal_iterate_nextDay v.toNat hd.1
    apply toOrdinal_inj hitv hval.1
    omega
  · intro hvneg
    obtain ⟨hitv, hito⟩ := toOrdinal_iterate_nextDay (-v).toNat hval.1
    apply toOrdinal_inj hitv hd.1
    omega

theorem claim1_witness :
    Valid ⟨1, 1, 15⟩ ∧ (toOrdinal (⟨1, 1, 15⟩ : Date) : Int) =
        (toOrdinal (⟨1, 1, 5⟩ : Date) : Int) + 10 ∧
      (toOrdinal (⟨1, 1, 5⟩ : Date) : Int) - |(10 : Int)| ≤
        (toOrdinal (⟨1, 1, 15⟩ : Date) : Int) ∧
      (toOrdinal (⟨1, 1, 15⟩ : Date) : Int) ≤
        (toOrdinal (⟨1, 1, 5⟩ : Date) : Int) + |(10 : Int)| ∧
      (0 ≤ (10 : Int) → nextDay^[(10 : Int).toNat] ⟨1, 1, 5⟩ = ⟨1, 1, 15⟩) ∧
      ((10 : Int) < 0 → nextDay^[(-(10 : Int)).toNat] ⟨1, 1, 15⟩ = ⟨1, 1, 5⟩) :=
  claim1_variance_within_range (m := 365) (by decide) (by decide) (by decide) (by decide)

/-- C2: the range validation at src/main.py:87-90 fails with a
`RangeExceeded` error carrying both the requested range and the configured
maximum exactly when `|r| > m`; when `|r| ≤ m` no `RangeExceeded` error of
any kind is produced.  The model is a pure function, so the check has no
side effects. -/
theorem claim2_range_validation (d : Date) (r m v : Int) :
    (m < |r| → injectDateVariance d r m v = Except.error (.rangeExceeded r m)) ∧
      (|r| ≤ m → ∀ r' m', injectDateVariance d r m v ≠ Except.error (.rangeExceeded r' m')) := by
  constructor
  · intro h
    unfold injectDateVariance
    rw [if_pos h]
  · intro h r' m'
    unfold injectDateVariance
    rw [if_neg (not_lt.mpr h)]
    rcases hA : addDays d v with _ | d2 <;> simp

theorem claim2_witness :
    injectDateVariance ⟨1, 1, 5⟩ 50 30 7 = Except.error (.rangeExceeded 50 30) :=
  (claim2_range_validation ⟨1, 1, 5⟩ 50 30 7).1 (by decide)

/-- C3 (counterexample): with the malformed date string `2023/10/26` and
`r = 50 > m = 30`, the program fails with `InvalidFormat` — not
`RangeExceeded` — so the claim that every run with `|r| > m` fails with
`RangeExceeded` is false; the date is validated first (src/main.py:107
before src/main.py:110). -/
theorem claim3_counterexample :
    (30 : Int) < |(50 : Int)| ∧
      mainRun ['2', '0', '2', '3', '/', '1', '0', '/', '2', '6'] 50 30 0 =
        ⟨none, some .invalidFormat, 1⟩ ∧
      ErrKind.invalidFormat ≠ ErrKind.rangeExceeded 50 30 := by decide

/-- C3 (amended): for every input with `|r| > m` the program prints nothing,
logs an error and exits with status 1; the logged error is `RangeExceeded`
(with both values) whenever the date string parses, and `InvalidFormat`
when it does not. -/
theorem claim3_range_exceeded_cli {s : List Char} {r m v : Int} (h : m < |r|) :
    (mainRun s r m v).printed = none ∧ (mainRun s r m v).exitCode = 1 ∧
      (∀ d, parseDateChars s = some d →
        (mainRun s r m v).logged = some (.rangeExceeded r m)) ∧
      (parseDateChars s = none →
        (mainRun s r m v).logged = some .invalidFormat) := by
  unfold mainRun
  rcases hp : parseDateChars s with _ | d <;> dsimp only
  · exact ⟨rfl, rfl, fun d hd => Option.noConfusion hd, fun _ => rfl⟩
  · rw [show injectDateVariance d r m v = Except.error (.rangeExceeded r m) from by
      unfold injectDateVariance; rw [if_pos h]]
    exact ⟨rfl, rfl, fun d2 _ => rfl, fun hn => Option.noConfusion hn⟩

theorem claim3_witness :
    (mainRun ['2', '0', '2', '3', '-', '1', '0', '-', '2', '6'] 50 30 0).printed = none ∧
      (mainRun ['2', '0', '2', '3', '-', '1', '0', '-', '2', '6'] 50 30 0).exitCode = 1 ∧
      (∀ d, parseDateChars ['2', '0', '2', '3', '-', '1', '0', '-', '2', '6'] = some d →
        (mainRun ['2', '0', '2', '3', '-', '1', '0', '-', '2', '6'] 50 30 0).logged =
          some (.rangeExceeded 50 30)) ∧
      (parseDateChars ['2', '0', '2', '3', '-', '1', '0', '-', '2', '6'] = none →
        (mainRun ['2', '0', '2', '3', '-', '1', '0', '-', '2', '6'] 50 30 0).logged =
          some .invalidFormat) :=
  claim3_range_exceeded_cli (by decide)

/-- C4 (counterexample): the parser accepts `2023-1-5`, a string that does
not match the claimed `YYYY-MM-DD` pattern with two-digit month and day —
CPython `strptime` `%m`/`%d` also match single digits — so "fails exactly
when the string does not match YYYY-MM-DD" is false as stated. -/
theorem claim4_counterexample :
    parseDateChars ['2', '0', '2', '3', '-', '1', '-', '5'] = some ⟨2023, 1, 5⟩ ∧
      strictPatternOK ['2', '0', '2', '3', '-', '1', '-', '5'] = false := by decide

/-- C4 (amended): `validate_date` succeeds, returning the corresponding
date, exactly on strings of the form `year-month-day` where the year is
exactly four Unicode decimal digits (`\d\d\d\d`), the month is a one- or
two-digit ASCII run matching `1[0-2]|0[1-9]|[1-9]`, the remainder after the
second dash matches the `%d` regex `3[0-1]|[1-2]\d|0[1-9]|[1-9]| [1-9]`
(one or two digits — Unicode allowed after a leading 1 or 2 — or a
space-padded single digit), and the resulting triple is a constructible
calendar date with year ≥ 1; all other strings (including impossible dates
such as 2023-02-30) fail with `InvalidFormat`.  Neither month nor day need
be zero-padded, and the day may be space-padded. -/
theorem claim4_parser_characterization (cs : List Char) (d : Date) :
    parseDateChars cs = some d ↔ ParsesTo cs d :=
  parse_iff cs d

theorem claim4_witness :
    ParsesTo ['2', '0', '2', '3', '-', '1', '0', '-', ' ', '5'] ⟨2023, 10, 5⟩ :=
  (claim4_parser_characterization _ _).mp (by decide)

/-- C5: with requested range 0 (and any maximum `m ≥ 0`), the injection is
deterministic — every draw permitted by `randint(-0, 0)` is 0 — and returns
the input date unchanged, so the formatted output equals the formatted
input. -/
theorem claim5_zero_range_identity {d : Date} {m v : Int} (hd : Valid d)
    (hm : 0 ≤ m) (hv : drawOk 0 v) :
    injectDateVariance d 0 m v = Except.ok d ∧
      Except.map formatDefault (injectDateVariance d 0 m v) =
        Except.ok (formatDefault d) := by
  have hv0 : v = 0 := by
    obtain ⟨h1, h2⟩ := hv
    simp only [abs_zero, neg_zero] at h1 h2
    omega
  subst hv0
  obtain ⟨ho1, ho2⟩ := toOrdinal_range hd
  have hok : injectDateVariance d 0 m 0 = Except.ok d := by
    have h := inject_ok_of_inrange (d := d) (r := 0) (m := m) (v := 0)
      (by simp [hm]) (by omega) (by omega)
    rw [h]
    congr 1
    rw [show ((toOrdinal d : Int) + 0).toNat = toOrdinal d by omega]
    exact fromOrdinal_toOrdinal hd
  exact ⟨hok, by rw [hok]; rfl⟩

theorem claim5_witness :
    injectDateVariance ⟨1, 1, 5⟩ 0 365 0 = Except.ok ⟨1, 1, 5⟩ ∧
      Except.map formatDefault (injectDateVariance ⟨1, 1, 5⟩ 0 365 0) =
        Except.ok (formatDefault ⟨1, 1, 5⟩) :=
  claim5_zero_range_identity (by decide) (by decide) (by decide)

/-- C6 (counterexample): at the maximal representable date 9999-12-31 with
`r = 1`, `m = 365`, the offset `v = 1` lies in `[-|r|, |r|]`, but no draw
makes the injection return the date shifted by `+1` day: the shift
overflows, so "every integer `v` in `[-|r|, |r|]` is realizable" is false
as stated. -/
theorem claim6_counterexample :
    Valid ⟨9999, 12, 31⟩ ∧ |(1 : Int)| ≤ (365 : Int) ∧ drawOk 1 1 ∧
      (∀ w : Int, drawOk 1 w → ∀ d' : Date,
        injectDateVariance ⟨9999, 12, 31⟩ 1 365 w = Except.ok d' →
          (toOrdinal d' : Int) ≠ (toOrdinal (⟨9999, 12, 31⟩ : Date) : Int) + 1) := by
  refine ⟨by decide, by decide, by decide, ?_⟩
  intro w hw d' h
  obtain ⟨_, _, h2, _, hord⟩ := inject_ok_spec h
  intro hcontra
  have hmax : (toOrdinal (⟨9999, 12, 31⟩ : Date) : Int) = (maxOrdinal : Int) := by decide
  omega

/-- C6 (amended): for every valid date `d`, range `|r| ≤ m` and offset `v`
with `-|r| ≤ v ≤ |r|`, provided the shifted ordinal stays within the
representable calendar (years 1..9999), there is a draw — namely `v`
itself — under which the injection returns exactly `d` shifted by `v`
days; in particular both endpoints are reachable whenever they are
representable. -/
theorem claim6_every_offset_reachable {d : Date} {r m v : Int} (hd : Valid d)
    (hrm : |r| ≤ m) (hv : drawOk r v) (h1 : 1 ≤ (toOrdinal d : Int) + v)
    (h2 : (toOrdinal d : Int) + v ≤ (maxOrdinal : Int)) :
    ∃ d', injectDateVariance d r m v = Except.ok d' ∧
      (toOrdinal d' : Int) = (toOrdinal d : Int) + v := by
  refine ⟨fromOrdinal ((toOrdinal d : Int) + v).toNat, inject_ok_of_inrange hrm h1 h2, ?_⟩
  obtain ⟨_, ho⟩ := fromOrdinal_correct (n := ((toOrdinal d : Int) + v).toNat)
    (by omega) (by omega)
  omega

theorem claim6_witness :
    ∃ d', injectDateVariance ⟨1, 1, 5⟩ 2 365 (-2) = Except.ok d' ∧
      (toOrdinal d' : Int) = (toOrdinal (⟨1, 1, 5⟩ : Date) : Int) + (-2) :=
  claim6_every_offset_reachable (by decide) (by decide) (by decide) (by decide) (by decide)

/-- C7 (counterexample): the valid date 0005-01-02 formats as `5-01-02`
(CPython/glibc `%Y` does not zero-pad years below 1000), and that string
does not re-parse — `strptime` demands exactly four year digits — so the
round-trip claimed for every valid calendar date is false. -/
theorem claim7_counterexample :
    Valid ⟨5, 1, 2⟩ ∧ parseDateChars (formatDefault ⟨5, 1, 2⟩) = none := by decide

/-- C7 (amended): for every valid date whose year is at least 1000 — so
that `%Y` renders exactly four digits — formatting with the default
`%Y-%m-%d` pattern and re-parsing the result with `validate_date` yields
the identical date. -/
theorem claim7_roundtrip {d : Date} (h : Valid d) (hy : 1000 ≤ d.year) :
    parseDateChars (formatDefault d) = some d :=
  parse_format_roundtrip h hy

theorem claim7_witness :
    parseDateChars (formatDefault ⟨2023, 10, 26⟩) = some ⟨2023, 10, 26⟩ :=
  claim7_roundtrip (by decide) (by decide)

/-- C8: the run of the program is a pure function of the date string, the
range, the maximum and the random stream, and it consumes only the single
draw `randint` makes: two runs whose streams agree on that first draw
produce identical observable results, so the draw is the only source of
non-determinism. -/
theorem claim8_deterministic (s : List Char) (r m : Int) (σ1 σ2 : Nat → Int)
    (h : σ1 0 = σ2 0) : mainRunStream s r m σ1 = mainRunStream s r m σ2 := by
  unfold mainRunStream
  rw [h]

theorem claim8_witness :
    mainRunStream ['2', '0', '2', '3', '-', '1', '0', '-', '2', '6'] 30 365
        (fun _ => 3) =
      mainRunStream ['2', '0', '2', '3', '-', '1', '0', '-', '2', '6'] 30 365
        (fun n => if n = 0 then 3 else 7) :=
  claim8_deterministic _ 30 365 _ _ rfl

/-- C9: even with `|r| ≤ m`, when the drawn offset pushes the date outside
the representable calendar (ordinal below 1 or above 9999-12-31), the
addition `date + timedelta` raises `OverflowError`; `main` catches it in
its generic handler, logs it, exits with status 1 and prints nothing. -/
theorem claim9_overflow_near_bounds {s : List Char} {d : Date} {r m v : Int}
    (hp : parseDateChars s = some d) (hrm : |r| ≤ m) (hv : drawOk r v)
    (hout : (toOrdinal d : Int) + v < 1 ∨ (maxOrdinal : Int) < (toOrdinal d : Int) + v) :
    injectDateVariance d r m v = Except.error ErrKind.overflow ∧
      mainRun s r m v = ⟨none, some ErrKind.overflow, 1⟩ := by
  have hinj := inject_overflow_of_outrange hrm hout
  refine ⟨hinj, ?_⟩
  unfold mainRun
  rw [hp]
  dsimp only
  rw [hinj]

theorem claim9_witness :
    injectDateVariance ⟨9999, 12, 31⟩ 5 365 3 = Except.error ErrKind.overflow ∧
      mainRun ['9', '9', '9', '9', '-', '1', '2', '-', '3', '1'] 5 365 3 =
        ⟨none, some ErrKind.overflow, 1⟩ :=
  claim9_overflow_near_bounds (by decide) (by decide) (by decide) (Or.inr (by decide))

/-- C10: the injection is symmetric in the sign of the requested range:
for every draw, `r` and `-r` yield the same successful results (hence the
same set of possible output dates), the range validation fails for `-r`
exactly when it fails for `r`, and the draw contract is the same for both,
since the code uses only `abs(range_days)`.  (The two failure messages
report `-r` and `r` respectively, so the error values themselves differ.) -/
theorem claim10_sign_symmetric (d : Date) (r m v : Int) :
    (∀ d', injectDateVariance d (-r) m v = Except.ok d' ↔
        injectDateVariance d r m v = Except.ok d') ∧
      (injectDateVariance d (-r) m v = Except.error (.rangeExceeded (-r) m) ↔
        injectDateVariance d r m v = Except.error (.rangeExceeded r m)) ∧
      (drawOk (-r) v ↔ drawOk r v) := by
  unfold injectDateVariance drawOk
  rw [abs_neg]
  refine ⟨fun d' => ?_, ?_, Iff.rfl⟩
  · split_ifs with hc
    · simp
    · exact Iff.rfl
  · split_ifs with hc
    · simp
    · rcases hA : addDays d v with _ | d2 <;> simp

theorem claim10_witness :
    (∀ d', injectDateVariance ⟨1, 1, 5⟩ (-10) 365 3 = Except.ok d' ↔
        injectDateVariance ⟨1, 1, 5⟩ 10 365 3 = Except.ok d') ∧
      (injectDateVariance ⟨1, 1, 5⟩ (-10) 365 3 = Except.error (.rangeExceeded (-10) 365) ↔
        injectDateVariance ⟨1, 1, 5⟩ 10 365 3 = Except.error (.rangeExceeded 10 365)) ∧
      (drawOk (-10) 3 ↔ drawOk 10 3) :=
  claim10_sign_symmetric ⟨1, 1, 5⟩ 10 365 3

end DateVariance
